import Mathlib

/-
Verification of the StackMint NFT-marketplace frontend components.

Shallow embedding of the TypeScript sources:
  BurnNFTModal, ListNFTModal, MakeOfferModal, TransferNFTModal,
  CollectionFilter and the useCollection hook.

Modelling conventions:
  JavaScript numbers are modelled as rationals, strings as Lean strings
  (lists of characters), the falsy-coalescing idiom (x || d) as an explicit
  case split on Option values together with the zero / empty-string test,
  JavaScript toUpperCase and toLowerCase as the ASCII case maps (all
  characters appearing in the modelled comparisons are ASCII), records used
  as string-keyed dictionaries as association lists whose key order mirrors
  JavaScript property-insertion order, and a fallible external callback as
  an Except value passed to the submission handler.
-/

namespace StackMint

/-! Character-level helpers for the ASCII case maps. -/

/-- Two characters are equal iff their code points agree. -/
theorem char_eq_iff_toNat {a b : Char} : a = b ↔ a.toNat = b.toNat :=
  ⟨fun h => h ▸ rfl, fun h => Char.ext (UInt32.toNat.inj h)⟩

/-- Code point of a character built from a nat below the surrogate range. -/
theorem toNat_charOfNat_of_lt {n : ℕ} (h : n < 55296) : (Char.ofNat n).toNat = n := by
  unfold Char.ofNat
  rw [dif_pos (Or.inl h)]
  rfl

/-- Upper-casing a character yields a given uppercase ASCII letter iff the
character is that letter or its lowercase counterpart. -/
theorem toUpper_eq_iff (c u l : Char) (hul : u.toNat + 32 = l.toNat)
    (h65 : 65 ≤ u.toNat) (h90 : u.toNat ≤ 90) :
    (Char.toUpper c = u ↔ (c = u ∨ c = l)) := by
  simp only [Char.toUpper]
  by_cases hc : 97 ≤ c.toNat ∧ c.toNat ≤ 122
  · rw [if_pos ⟨hc.1, hc.2⟩]
    have hv : c.toNat - 32 < 55296 := by omega
    rw [char_eq_iff_toNat, toNat_charOfNat_of_lt hv,
      char_eq_iff_toNat (a := c) (b := u), char_eq_iff_toNat (a := c) (b := l)]
    omega
  · rw [if_neg (by omega)]
    rw [char_eq_iff_toNat (a := c) (b := u), char_eq_iff_toNat (a := c) (b := l)]
    omega

/-- Lower-casing a character yields a given lowercase ASCII letter iff the
character is that letter or its uppercase counterpart. -/
theorem toLower_eq_iff (c u l : Char) (hul : u.toNat + 32 = l.toNat)
    (h65 : 65 ≤ u.toNat) (h90 : u.toNat ≤ 90) :
    (Char.toLower c = l ↔ (c = u ∨ c = l)) := by
  simp only [Char.toLower]
  by_cases hc : 65 ≤ c.toNat ∧ c.toNat ≤ 90
  · rw [if_pos ⟨hc.1, hc.2⟩]
    have hv : c.toNat + 32 < 55296 := by omega
    rw [char_eq_iff_toNat, toNat_charOfNat_of_lt hv,
      char_eq_iff_toNat (a := c) (b := u), char_eq_iff_toNat (a := c) (b := l)]
    omega
  · rw [if_neg (by omega)]
    rw [char_eq_iff_toNat (a := c) (b := u), char_eq_iff_toNat (a := c) (b := l)]
    omega

/-- Model of the JavaScript toUpperCase method (ASCII range). -/
def jsToUpper (s : String) : String := ⟨s.data.map Char.toUpper⟩

/-- Model of the JavaScript toLowerCase method (ASCII range). -/
def jsToLower (s : String) : String := ⟨s.data.map Char.toLower⟩

/-! Falsy-coalescing helpers for the JavaScript idiom (x || d). -/

/-- Model of (parseFloat s || d): a failed parse (NaN) and the parsed value 0
are both falsy and fall back to the default. -/
def jsOrQ (v : Option ℚ) (d : ℚ) : ℚ :=
  match v with
  | none => d
  | some x => if x = 0 then d else x

/-- Model of (a || b) on an optional string: null and the empty string are
falsy and fall back to the default. -/
def jsOrS (v : Option String) (d : String) : String :=
  match v with
  | none => d
  | some s => if s = "" then d else s

/-! CollectionFilter (src/frontend/src/components/CollectionFilter.tsx). -/

/-- Rarity levels of RARITY_LEVELS. -/
inductive Rarity
  | common
  | uncommon
  | rare
  | epic
  | legendary
  | mythic
deriving DecidableEq, Repr

/-- Status options of STATUS_OPTIONS. -/
inductive MarketStatus
  | buyNow
  | onAuction
  | newItem
  | hasOffers
deriving DecidableEq, Repr

/-- Currency values of FilterState.currency. -/
inductive Currency
  | STX
  | USD
deriving DecidableEq, Repr

/-- The FilterState interface. The traits record is an association list whose
key order mirrors JavaScript property-insertion order. -/
structure FilterState where
  priceRange : ℚ × ℚ
  rarities : List Rarity
  statuses : List MarketStatus
  traits : List (String × List String)
  currency : Currency
  sortBy : String
deriving DecidableEq, Repr

/-- DEFAULT_PRICE_RANGE constant. -/
def DEFAULT_PRICE_RANGE : ℚ × ℚ := (0, 1000)

/-- First binding of a key in a traits record, as in property access on a
JavaScript object. -/
def lookupTrait : List (String × List String) → String → Option (List String)
  | [], _ => none
  | p :: rest, k => if p.1 = k then some p.2 else lookupTrait rest k

/-- Selected values of a trait key, defaulting to the empty list
(filters.traits[traitType] || []). -/
def traitValues (traits : List (String × List String)) (k : String) : List String :=
  (lookupTrait traits k).getD []

/-- Model of (delete newTraits[traitType]) on the record: remove the bindings
of one key, keeping the order of the others. -/
def eraseTrait : List (String × List String) → String → List (String × List String)
  | [], _ => []
  | p :: rest, k => if p.1 = k then eraseTrait rest k else p :: eraseTrait rest k

/-- Model of (newTraits[traitType] = newValues) when the key already exists:
rewrite its bindings in place. -/
def replaceTrait : List (String × List String) → String → List String →
    List (String × List String)
  | [], _, _ => []
  | p :: rest, k, nv => (if p.1 = k then (k, nv) else p) :: replaceTrait rest k nv

/-- The newValues computation of toggleTraitValue: remove the value if it is
currently selected, append it otherwise. -/
def toggleList (l : List String) (v : String) : List String :=
  if l.contains v then l.filter (fun y => y ≠ v) else l ++ [v]

/-- The toggleTraitValue handler: membership-toggle a value in the selected
set of one trait key; an emptied selection deletes the key, a fresh key is
appended at the end of the record, an existing key is updated in place. -/
def toggleTraitValue (traits : List (String × List String)) (traitType value : String) :
    List (String × List String) :=
  let newValues := toggleList (traitValues traits traitType) value
  if newValues = [] then
    eraseTrait traits traitType
  else if (lookupTrait traits traitType).isSome then
    replaceTrait traits traitType newValues
  else
    traits ++ [(traitType, newValues)]

/-- The applyPriceRange handler, over the parse results of the two local
text buffers: commit [Math.min, Math.max] of (parsed min || 0) and
(parsed max || maxPrice). -/
def applyPriceRange (parsedMin parsedMax : Option ℚ) (maxPrice : ℚ) : ℚ × ℚ :=
  let lo := jsOrQ parsedMin 0
  let hi := jsOrQ parsedMax maxPrice
  (min lo hi, max lo hi)

/-- The clearAllFilters handler: emits the fixed default FilterState through
onFiltersChange and resets the two local price buffers (returned as the
numeric contents of the two text buffers). -/
def clearAllFilters (_prior : FilterState) (maxPrice : ℚ) : FilterState × ℚ × ℚ :=
  ({ priceRange := DEFAULT_PRICE_RANGE
     rarities := []
     statuses := []
     traits := []
     currency := Currency.STX
     sortBy := "recent" },
   0, maxPrice)

/-! Lemmas about the traits association list. -/

/-- Deleting a key makes its lookup fail. -/
theorem lookupTrait_erase_self (t : List (String × List String)) (k : String) :
    lookupTrait (eraseTrait t k) k = none := by
  induction t with
  | nil => rfl
  | cons p rest ih =>
    by_cases h : p.1 = k
    · simpa [eraseTrait, h] using ih
    · simpa [eraseTrait, h, lookupTrait] using ih

/-- Deleting one key leaves lookups of other keys unchanged. -/
theorem lookupTrait_erase_ne (t : List (String × List String)) (k k' : String)
    (hk : k' ≠ k) : lookupTrait (eraseTrait t k) k' = lookupTrait t k' := by
  have hk2 : ¬ k = k' := fun hh => hk hh.symm
  induction t with
  | nil => rfl
  | cons p rest ih =>
    by_cases h : p.1 = k
    · have hpk : ¬ p.1 = k' := by rw [h]; exact hk2
      simp [eraseTrait, h, lookupTrait, hpk, ih, hk2]
    · by_cases h2 : p.1 = k'
      · simp [eraseTrait, h, lookupTrait, h2, hk]
      · simp [eraseTrait, h, lookupTrait, h2, ih]

/-- If a key has no binding, deleting it does not change the list. -/
theorem erase_eq_self_of_lookupTrait_none (t : List (String × List String)) (k : String)
    (h : lookupTrait t k = none) : eraseTrait t k = t := by
  induction t with
  | nil => rfl
  | cons p rest ih =>
    by_cases hp : p.1 = k
    · simp [lookupTrait, hp] at h
    · simp only [lookupTrait, if_neg hp] at h
      simp [eraseTrait, hp, ih h]

/-- Replacing the bindings of one key rewrites exactly that lookup. -/
theorem lookupTrait_replace (t : List (String × List String)) (k k' : String)
    (nv : List String) :
    lookupTrait (replaceTrait t k nv) k'
      = if k' = k then (lookupTrait t k).map (fun _ => nv) else lookupTrait t k' := by
  induction t with
  | nil => cases Decidable.em (k' = k) <;> simp [lookupTrait, replaceTrait, *]
  | cons p rest ih =>
    by_cases hp : p.1 = k
    · by_cases hk : k' = k
      · simp [replaceTrait, hp, lookupTrait, hk]
      · have hkk : k ≠ k' := fun hh => hk hh.symm
        simp [replaceTrait, hp, lookupTrait, hk, hkk, ih]
    · by_cases hpk : p.1 = k'
      · by_cases hk : k' = k
        · exact absurd (hpk.trans hk) hp
        · simp [replaceTrait, hp, lookupTrait, hpk, hk]
      · simp [replaceTrait, hp, lookupTrait, hpk, ih]

/-- Appending a fresh binding at the end: an earlier binding wins, otherwise
the appended binding is found for its own key only. -/
theorem lookupTrait_append_single (t : List (String × List String)) (k k' : String)
    (nv : List String) :
    lookupTrait (t ++ [(k, nv)]) k'
      = match lookupTrait t k' with
        | some v => some v
        | none => if k = k' then some nv else none := by
  induction t with
  | nil => simp [lookupTrait]
  | cons p rest ih =>
    by_cases hp : p.1 = k'
    · simp [lookupTrait, hp]
    · simp [lookupTrait, hp, ih]

/-- A single toggle rewrites the toggled key's selected values to the
toggled list. -/
theorem traitValues_toggle_self (t : List (String × List String)) (tt v : String) :
    traitValues (toggleTraitValue t tt v) tt = toggleList (traitValues t tt) v := by
  unfold toggleTraitValue
  set nv := toggleList (traitValues t tt) v with hnv
  by_cases hempty : nv = []
  · rw [if_pos hempty, traitValues, lookupTrait_erase_self, hempty]
    rfl
  · rw [if_neg hempty]
    by_cases hsome : (lookupTrait t tt).isSome
    · rw [if_pos hsome]
      rcases Option.isSome_iff_exists.mp hsome with ⟨w, hw⟩
      rw [traitValues, lookupTrait_replace, if_pos rfl, hw]
      rfl
    · rw [if_neg hsome]
      have hnone : lookupTrait t tt = none := Option.not_isSome_iff_eq_none.mp hsome
      rw [traitValues, lookupTrait_append_single, hnone]
      simp

/-- A single toggle leaves every other key's selected values unchanged. -/
theorem traitValues_toggle_ne (t : List (String × List String)) (tt v k : String)
    (hk : k ≠ tt) :
    traitValues (toggleTraitValue t tt v) k = traitValues t k := by
  unfold toggleTraitValue
  set nv := toggleList (traitValues t tt) v with hnv
  by_cases hempty : nv = []
  · rw [if_pos hempty, traitValues, lookupTrait_erase_ne t tt k hk]
    rfl
  · rw [if_neg hempty]
    by_cases hsome : (lookupTrait t tt).isSome
    · rw [if_pos hsome, traitValues, lookupTrait_replace, if_neg hk]
      rfl
    · rw [if_neg hsome]
      have htk : ¬ tt = k := fun hh => hk hh.symm
      rw [traitValues, lookupTrait_append_single, traitValues]
      cases hlk : lookupTrait t k <;> simp [htk]

/-- Toggling the same value twice preserves membership in the selected set. -/
theorem mem_toggleList_toggleList (l : List String) (v x : String) :
    x ∈ toggleList (toggleList l v) v ↔ x ∈ l := by
  unfold toggleList
  by_cases h : l.contains v
  · have hv : v ∈ l := by simpa using h
    rw [if_pos h]
    have hnc : ¬ (l.filter (fun y => y ≠ v)).contains v = true := by
      simp
    rw [if_neg hnc]
    simp only [List.mem_append, List.mem_filter, List.mem_singleton, decide_eq_true_eq,
      ne_eq]
    constructor
    · rintro (⟨hx, _⟩ | rfl)
      · exact hx
      · exact hv
    · intro hx
      by_cases hxv : x = v
      · exact Or.inr hxv
      · exact Or.inl ⟨hx, hxv⟩
  · have hv : v ∉ l := by simpa using h
    rw [if_neg h]
    have hc : (l ++ [v]).contains v = true := by simp
    rw [if_pos hc]
    have hfa : (l ++ [v]).filter (fun y => y ≠ v) = l.filter (fun y => y ≠ v) := by
      simp [List.filter_append]
    rw [hfa, List.filter_eq_self.mpr]
    intro a ha
    simp only [ne_eq, decide_eq_true_eq]
    exact fun hh => hv (hh ▸ ha)

/-- Entries surviving a key deletion were already present. -/
theorem mem_eraseTrait (t : List (String × List String)) (k : String)
    (p : String × List String) (hp : p ∈ eraseTrait t k) : p ∈ t := by
  induction t with
  | nil => simp [eraseTrait] at hp
  | cons q rest ih =>
    by_cases h : q.1 = k
    · rw [eraseTrait, if_pos h] at hp
      exact List.mem_cons_of_mem q (ih hp)
    · rw [eraseTrait, if_neg h] at hp
      rcases List.mem_cons.mp hp with rfl | hp2
      · exact List.mem_cons_self _ _
      · exact List.mem_cons_of_mem q (ih hp2)

/-- Entries of an in-place replacement carry the new value list or were
already present. -/
theorem mem_replaceTrait (t : List (String × List String)) (k : String)
    (nv : List String) (p : String × List String) (hp : p ∈ replaceTrait t k nv) :
    p.2 = nv ∨ p ∈ t := by
  induction t with
  | nil => simp [replaceTrait] at hp
  | cons q rest ih =>
    rw [replaceTrait] at hp
    rcases List.mem_cons.mp hp with hq | hp2
    · by_cases h : q.1 = k
      · rw [if_pos h] at hq
        exact Or.inl (by rw [hq])
      · rw [if_neg h] at hq
        exact Or.inr (hq ▸ List.mem_cons_self q rest)
    · rcases ih hp2 with h2 | h2
      · exact Or.inl h2
      · exact Or.inr (List.mem_cons_of_mem q h2)

/-- Claim C7: toggling the same trait value twice returns the traits record
to its prior content (the selected set seen at every key is unchanged), and
a toggle never leaves a key bound to an empty selected set: starting from a
record with no empty selection, every entry after a toggle is non-empty. -/
theorem toggleTraitValue_roundTrip (t : List (String × List String)) (tt v : String) :
    (∀ k x : String,
      x ∈ traitValues (toggleTraitValue (toggleTraitValue t tt v) tt v) k
        ↔ x ∈ traitValues t k)
    ∧ ((∀ p ∈ t, p.2 ≠ ([] : List String)) →
        ∀ p ∈ toggleTraitValue t tt v, p.2 ≠ ([] : List String)) := by
  constructor
  · intro k x
    by_cases hk : k = tt
    · subst hk
      rw [traitValues_toggle_self, traitValues_toggle_self]
      exact mem_toggleList_toggleList (traitValues t k) v x
    · rw [traitValues_toggle_ne _ _ _ _ hk, traitValues_toggle_ne _ _ _ _ hk]
  · intro hinv p hp
    unfold toggleTraitValue at hp
    by_cases hempty : toggleList (traitValues t tt) v = []
    · rw [if_pos hempty] at hp
      exact hinv p (mem_eraseTrait t tt p hp)
    · rw [if_neg hempty] at hp
      by_cases hsome : (lookupTrait t tt).isSome
      · rw [if_pos hsome] at hp
        rcases mem_replaceTrait t tt _ p hp with h2 | h2
        · rw [h2]; exact hempty
        · exact hinv p h2
      · rw [if_neg hsome] at hp
        rcases List.mem_append.mp hp with h2 | h2
        · exact hinv p h2
        · rcases List.mem_singleton.mp h2 with rfl
          exact hempty

/-- Claim C7 witness: the round trip and the no-empty-selection invariant at
a concrete record. -/
theorem toggleTraitValue_roundTrip_witness :
    ("Blue" ∈ traitValues
        (toggleTraitValue
          (toggleTraitValue [("Background", ["Blue"])] "Eyes" "Laser") "Eyes" "Laser")
        "Background")
    ∧ (("Eyes", ["Laser"]) : String × List String).2 ≠ ([] : List String) :=
  ⟨((toggleTraitValue_roundTrip [("Background", ["Blue"])] "Eyes" "Laser").1
      "Background" "Blue").mpr (by decide),
   ((toggleTraitValue_roundTrip [("Background", ["Blue"])] "Eyes" "Laser").2
      (by decide)) ("Eyes", ["Laser"]) (by decide)⟩

/-- Claim C2: clearAllFilters emits exactly the fixed default filter state,
with price range the default maximum of 1000, irrespective of the prior
state, and resets the local price buffers to 0 and the maxPrice prop. -/
theorem clearAllFilters_spec (prior : FilterState) (maxPrice : ℚ) :
    clearAllFilters prior maxPrice =
      ({ priceRange := (0, 1000)
         rarities := []
         statuses := []
         traits := []
         currency := Currency.STX
         sortBy := "recent" }, 0, maxPrice) := rfl

/-- Claim C8: committing the two price text buffers always produces an
ordered price range, whichever bound was typed larger. -/
theorem applyPriceRange_ordered (parsedMin parsedMax : Option ℚ) (maxPrice : ℚ) :
    (applyPriceRange parsedMin parsedMax maxPrice).1
      ≤ (applyPriceRange parsedMin parsedMax maxPrice).2 := by
  unfold applyPriceRange
  exact min_le_max

/-! ListNFTModal (src/unnamed/part_000 area, ListNFTModal component). -/

/-- MARKETPLACE_FEE_PERCENT constant (2.5). -/
def MARKETPLACE_FEE_PERCENT : ℚ := 5 / 2

/-- CREATOR_ROYALTY_PERCENT constant (5). -/
def CREATOR_ROYALTY_PERCENT : ℚ := 5

/-- The marketplaceFee derived value of ListNFTModal. -/
def marketplaceFee (priceValue : ℚ) : ℚ := priceValue * (MARKETPLACE_FEE_PERCENT / 100)

/-- The creatorRoyalty derived value of ListNFTModal. -/
def creatorRoyalty (priceValue : ℚ) : ℚ := priceValue * (CREATOR_ROYALTY_PERCENT / 100)

/-- The youReceive derived value of ListNFTModal. -/
def youReceive (priceValue : ℚ) : ℚ :=
  priceValue - marketplaceFee priceValue - creatorRoyalty priceValue

/-- Claim C3: the displayed proceeds equal the listing price minus the 2.5
percent marketplace fee minus the 5 percent creator royalty, and at listing
price 100 the proceeds are exactly 92.5. -/
theorem youReceive_spec :
    (∀ p : ℚ, youReceive p = p - marketplaceFee p - creatorRoyalty p)
    ∧ youReceive 100 = 185 / 2 := by
  constructor
  · intro p
    rfl
  · norm_num [youReceive, marketplaceFee, creatorRoyalty, MARKETPLACE_FEE_PERCENT,
      CREATOR_ROYALTY_PERCENT]

/-! MakeOfferModal. -/

/-- MIN_OFFER_PERCENT constant (10). -/
def MIN_OFFER_PERCENT : ℚ := 10

/-- The hasEnoughBalance derived value of MakeOfferModal: the offer amount is
covered by the STX balance or by the WSTX balance, each taken separately. -/
def hasEnoughBalance (offerAmount userBalance wstxBalance : ℚ) : Bool :=
  decide (offerAmount ≤ userBalance) || decide (offerAmount ≤ wstxBalance)

/-- Validation outcomes of the MakeOfferModal validate function; the
insufficient-balance message interpolates the combined total balance. -/
inductive OfferValidationError
  | emptyAmount
  | insufficientBalance (totalReported : ℚ)
  | belowMinimumOffer
deriving DecidableEq

/-- The validate function of MakeOfferModal over the raw amount string, its
parse result, both balances and the reference price. -/
def offerValidate (amount : String) (parsedAmount : Option ℚ)
    (userBalance wstxBalance referencePrice : ℚ) : Option OfferValidationError :=
  let offerAmount := jsOrQ parsedAmount 0
  if amount = "" ∨ offerAmount ≤ 0 then
    some OfferValidationError.emptyAmount
  else if ¬ hasEnoughBalance offerAmount userBalance wstxBalance then
    some (OfferValidationError.insufficientBalance (userBalance + wstxBalance))
  else if 0 < referencePrice ∧ offerAmount < referencePrice * (MIN_OFFER_PERCENT / 100) then
    some OfferValidationError.belowMinimumOffer
  else
    none

/-- Claim C10: the balance check passes iff the offer amount is at most the
STX balance or at most the WSTX balance taken separately; an amount that
exceeds both is rejected with the insufficient-balance error reporting the
combined total, even when it does not exceed that total. -/
theorem offerBalance_spec :
    (∀ a u w : ℚ, hasEnoughBalance a u w = true ↔ (a ≤ u ∨ a ≤ w))
    ∧ (∀ (amount : String) (a u w r : ℚ), amount ≠ "" → 0 < a → u < a → w < a →
        a ≤ u + w →
        offerValidate amount (some a) u w r
          = some (OfferValidationError.insufficientBalance (u + w))) := by
  constructor
  · intro a u w
    simp [hasEnoughBalance]
  · intro amount a u w r hne hpos hu hw _hsum
    have hOr : jsOrQ (some a) 0 = a := by
      simp [jsOrQ, ne_of_gt hpos]
    unfold offerValidate
    rw [hOr, if_neg (by push_neg; exact ⟨hne, hpos⟩),
      if_pos (by simp only [hasEnoughBalance, Bool.or_eq_true, decide_eq_true_eq, not_or,
        not_le]; exact ⟨hu, hw⟩)]

/-- Claim C10 witness: an offer of 3 against separate balances of 2 and 2 is
rejected with the insufficient-balance error reporting the total 4, although
3 does not exceed the total. -/
theorem offerBalance_spec_witness :
    offerValidate "3" (some 3) 2 2 0
      = some (OfferValidationError.insufficientBalance (2 + 2)) :=
  offerBalance_spec.2 "3" 3 2 2 0 (by decide) (by norm_num) (by norm_num)
    (by norm_num) (by norm_num)

/-! BurnNFTModal (src/unnamed/part_000). -/

/-- BURN_GAS_ESTIMATE constant (0.0003). -/
def BURN_GAS_ESTIMATE : ℚ := 3 / 10000

/-- The requiredConfirmText constant of BurnNFTModal. -/
def requiredConfirmText : String := "BURN"

/-- The isConfirmed derived value of BurnNFTModal: the typed confirmation
text upper-cases to the required token. -/
def isConfirmed (confirmText : String) : Bool := jsToUpper confirmText = requiredConfirmText

/-- The gas-sufficiency check of BurnNFTModal. -/
def burnHasEnoughGas (userBalance : ℚ) : Bool := decide (BURN_GAS_ESTIMATE ≤ userBalance)

/-- The guard of the handleBurn submission handler (also the enabled state of
the burn button apart from the busy flag): confirmation text accepted and
balance covering the gas estimate. -/
def burnSubmitAllowed (confirmText : String) (userBalance : ℚ) : Bool :=
  isConfirmed confirmText && burnHasEnoughGas userBalance

/-- Upper-casing a character list to the BURN token is the same as
lower-casing it to the burn token. -/
theorem map_upper_burn_iff (cs : List Char) :
    cs.map Char.toUpper = ['B', 'U', 'R', 'N'] ↔ cs.map Char.toLower = ['b', 'u', 'r', 'n'] := by
  rcases cs with _ | ⟨c1, _ | ⟨c2, _ | ⟨c3, _ | ⟨c4, _ | ⟨c5, rest⟩⟩⟩⟩⟩ <;>
    simp [toUpper_eq_iff _ 'B' 'b' (by decide) (by decide) (by decide),
      toUpper_eq_iff _ 'U' 'u' (by decide) (by decide) (by decide),
      toUpper_eq_iff _ 'R' 'r' (by decide) (by decide) (by decide),
      toUpper_eq_iff _ 'N' 'n' (by decide) (by decide) (by decide),
      toLower_eq_iff _ 'B' 'b' (by decide) (by decide) (by decide),
      toLower_eq_iff _ 'U' 'u' (by decide) (by decide) (by decide),
      toLower_eq_iff _ 'R' 'r' (by decide) (by decide) (by decide),
      toLower_eq_iff _ 'N' 'n' (by decide) (by decide) (by decide)]

/-- Claim C9: burn submission is allowed exactly when the confirmation text
is case-insensitively equal to the BURN token (its lower-casing agrees with
the lower-cased token) and the balance covers the burn gas estimate; any
other confirmation text keeps submission disabled. -/
theorem burnSubmitAllowed_iff (confirmText : String) (userBalance : ℚ) :
    burnSubmitAllowed confirmText userBalance = true
      ↔ (jsToLower confirmText = jsToLower requiredConfirmText
          ∧ BURN_GAS_ESTIMATE ≤ userBalance) := by
  unfold burnSubmitAllowed isConfirmed burnHasEnoughGas jsToUpper jsToLower
  rw [Bool.and_eq_true, decide_eq_true_eq, decide_eq_true_eq]
  constructor
  · rintro ⟨h1, h2⟩
    refine ⟨?_, h2⟩
    have hd : confirmText.data.map Char.toUpper = requiredConfirmText.data :=
      congrArg String.data h1
    have : confirmText.data.map Char.toLower = ['b', 'u', 'r', 'n'] :=
      (map_upper_burn_iff confirmText.data).mp (by simpa [requiredConfirmText] using hd)
    simp [requiredConfirmText, this]
  · rintro ⟨h1, h2⟩
    refine ⟨?_, h2⟩
    have hd : confirmText.data.map Char.toLower
        = (jsToLower requiredConfirmText).data := congrArg String.data h1
    have : confirmText.data.map Char.toUpper = ['B', 'U', 'R', 'N'] :=
      (map_upper_burn_iff confirmText.data).mpr
        (by simpa [jsToLower, requiredConfirmText] using hd)
    simp [requiredConfirmText, this]

/-! TransferNFTModal: address classification. -/

/-- TRANSFER_GAS_ESTIMATE constant (0.0005). -/
def TRANSFER_GAS_ESTIMATE : ℚ := 5 / 10000

/-- STACKS_ADDRESS_LENGTH constant. -/
def STACKS_ADDRESS_LENGTH : ℕ := 41

/-- Character class of the STACKS_ADDRESS_REGEX body: uppercase letter or
digit. -/
def upperAlnumChar (c : Char) : Bool :=
  (65 ≤ c.toNat && c.toNat ≤ 90) || (48 ≤ c.toNat && c.toNat ≤ 57)

/-- The STACKS_ADDRESS_REGEX test, anchored at both ends: the letters SP
followed by exactly 39 uppercase alphanumeric characters. -/
def stacksAddressChars : List Char → Bool
  | 'S' :: 'P' :: rest => rest.length = 39 && rest.all upperAlnumChar
  | _ => false

/-- The STACKS_ADDRESS_REGEX test on a string. -/
def stacksAddressTest (s : String) : Bool := stacksAddressChars s.data

/-- Character class of the BNS_DOMAIN_REGEX body after lower-casing:
lowercase letter, digit or hyphen. -/
def bnsBodyChar (c : Char) : Bool :=
  (97 ≤ c.toNat && c.toNat ≤ 122) || (48 ≤ c.toNat && c.toNat ≤ 57) || c.toNat = 45

/-- The BNS_DOMAIN_REGEX test on an already lower-cased character list,
anchored at both ends: a non-empty body of the body class followed by the
dot-btc suffix (matched via the reversed list). -/
def bnsDomainCharsLow (cs : List Char) : Bool :=
  match cs.reverse with
  | 'c' :: 't' :: 'b' :: '.' :: rest => !rest.isEmpty && rest.all bnsBodyChar
  | _ => false

/-- The BNS_DOMAIN_REGEX test on a string; the case-insensitive flag is
modelled by lower-casing first. -/
def bnsDomainTest (s : String) : Bool := bnsDomainCharsLow (s.data.map Char.toLower)

/-- The lenient fallback check of validateAddress: starts with SP and has
total length 41. -/
def lenientSPCheck (s : String) : Bool :=
  match s.data with
  | 'S' :: 'P' :: _ => s.data.length = STACKS_ADDRESS_LENGTH
  | _ => false

/-- Verdict of the debounced address classification: no verdict for the
empty string, valid with a resolved address for a BNS name, valid without
one for a direct address, invalid otherwise. -/
inductive AddressVerdict
  | noVerdict
  | validResolved (resolved : String)
  | valid
  | invalid
deriving DecidableEq, Repr

/-- The mock BNS resolution result: SP followed by 39 copies of X. -/
def mockResolvedAddress : String := ⟨'S' :: 'P' :: List.replicate 39 'X'⟩

/-- The validateAddress callback of TransferNFTModal. -/
def validateAddress (address : String) : AddressVerdict :=
  if address = "" then AddressVerdict.noVerdict
  else if bnsDomainTest address then AddressVerdict.validResolved mockResolvedAddress
  else if stacksAddressTest address then AddressVerdict.valid
  else if lenientSPCheck address then AddressVerdict.valid
  else AddressVerdict.invalid

/-- An all-lowercase 41-character SP string: it matches neither the
direct-address regex (which requires uppercase alphanumerics) nor the BNS
domain regex, but passes the lenient fallback check. -/
def lowercaseSPInput : String := ⟨'S' :: 'P' :: List.replicate 39 'x'⟩

/-- Claim C1 counterexample: a non-empty recipient that matches neither the
BNS domain pattern nor the direct Stacks-address pattern is nevertheless
classified valid, through the lenient length-41 SP fallback branch, so the
classification does not reduce to the three claimed verdicts. -/
theorem validateAddress_lenient_counterexample :
    lowercaseSPInput ≠ ""
    ∧ bnsDomainTest lowercaseSPInput = false
    ∧ stacksAddressTest lowercaseSPInput = false
    ∧ validateAddress lowercaseSPInput = AddressVerdict.valid := by
  refine ⟨?_, ?_, ?_, ?_⟩ <;> decide

/-- Claim C1 (amended): for a non-empty recipient string the debounced
classification yields: a BNS domain match becomes valid with the resolved
address; otherwise a direct Stacks-address match becomes valid with no
resolved address; otherwise a string passing the lenient check (starts with
SP and has length 41) also becomes valid with no resolved address; every
remaining string is invalid; the empty string yields no verdict. -/
theorem validateAddress_classification (s : String) :
    (s = "" → validateAddress s = AddressVerdict.noVerdict)
    ∧ (s ≠ "" →
        (bnsDomainTest s = true →
          validateAddress s = AddressVerdict.validResolved mockResolvedAddress)
        ∧ (bnsDomainTest s = false → stacksAddressTest s = true →
          validateAddress s = AddressVerdict.valid)
        ∧ (bnsDomainTest s = false → stacksAddressTest s = false →
            lenientSPCheck s = true →
          validateAddress s = AddressVerdict.valid)
        ∧ (bnsDomainTest s = false → stacksAddressTest s = false →
            lenientSPCheck s = false →
          validateAddress s = AddressVerdict.invalid)) := by
  constructor
  · intro h
    simp [validateAddress, h]
  · intro hne
    refine ⟨?_, ?_, ?_, ?_⟩
    · intro hb
      simp [validateAddress, hne, hb]
    · intro hb hs
      simp [validateAddress, hne, hb, hs]
    · intro hb hs hl
      simp [validateAddress, hne, hb, hs, hl]
    · intro hb hs hl
      simp [validateAddress, hne, hb, hs, hl]

/-- Claim C1 witness: the classification of a concrete BNS name, a concrete
direct address and a concrete invalid string. -/
theorem validateAddress_classification_witness :
    validateAddress "muneeb.btc" = AddressVerdict.validResolved mockResolvedAddress
    ∧ validateAddress "invalid-recipient" = AddressVerdict.invalid :=
  ⟨(((validateAddress_classification "muneeb.btc").2 (by decide)).1 (by decide)),
   (((validateAddress_classification "invalid-recipient").2 (by decide)).2.2.2
      (by decide) (by decide) (by decide))⟩

/-! TransferNFTModal: component state and submission flow. -/

/-- NFT data handed to TransferNFTModal. -/
structure NFTInfo where
  id : String
  name : String
  image : Option String
  collection : String
  tokenId : ℕ
deriving DecidableEq, Repr

/-- The TransferData payload handed to the onTransfer callback. -/
structure TransferData where
  nftId : String
  tokenId : ℕ
  recipient : String
  memo : Option String
deriving DecidableEq, Repr

/-- The local state of TransferNFTModal: field values, validation verdict,
resolved address, the per-field error record and the view toggle. -/
structure TransferModalState where
  isOpen : Bool
  recipient : String
  memo : String
  addressValid : Option Bool
  resolvedAddress : Option String
  recipientError : Option String
  gasError : Option String
  submitError : Option String
  showConfirmation : Bool
deriving DecidableEq, Repr

/-- The open transition of TransferNFTModal: the reset effect runs whenever
the modal opens, clearing every field, the verdicts, the errors and the
confirmation toggle. -/
def openTransferModal (s : TransferModalState) : TransferModalState :=
  { s with
    isOpen := true
    recipient := ""
    memo := ""
    addressValid := none
    resolvedAddress := none
    recipientError := none
    gasError := none
    submitError := none
    showConfirmation := false }

/-- Effect of a completed debounced validateAddress call on the component
state. -/
def applyAddressValidation (s : TransferModalState) : TransferModalState :=
  match validateAddress s.recipient with
  | AddressVerdict.noVerdict => { s with addressValid := none, resolvedAddress := none }
  | AddressVerdict.validResolved r =>
      { s with addressValid := some true, resolvedAddress := some r }
  | AddressVerdict.valid => { s with addressValid := some true, resolvedAddress := none }
  | AddressVerdict.invalid =>
      { s with addressValid := some false, resolvedAddress := none }

/-- The recipient entry of the validate error record. -/
def transferRecipientError (s : TransferModalState) : Option String :=
  if s.recipient = "" then some "Please enter a recipient address"
  else if s.addressValid ≠ some true then some "Invalid Stacks address or BNS name"
  else none

/-- The gas entry of the validate error record. -/
def transferGasError (userBalance : ℚ) : Option String :=
  if userBalance < TRANSFER_GAS_ESTIMATE then
    some "Insufficient balance for gas. Need 0.0005 STX"
  else none

/-- The validate function of TransferNFTModal: replaces the whole error
record and reports whether it is empty. -/
def transferValidate (s : TransferModalState) (userBalance : ℚ) :
    TransferModalState × Bool :=
  let re := transferRecipientError s
  let ge := transferGasError userBalance
  ({ s with recipientError := re, gasError := ge, submitError := none },
   re.isNone && ge.isNone)

/-- The payload assembled by handleSubmit: the resolved address when one
exists, the typed recipient otherwise, and the trimmed memo when non-empty. -/
def mkTransferData (nft : NFTInfo) (s : TransferModalState) : TransferData :=
  { nftId := nft.id
    tokenId := nft.tokenId
    recipient := jsOrS s.resolvedAddress s.recipient
    memo := if s.memo.trim = "" then none else some s.memo.trim }

/-- The handleSubmit flow of TransferNFTModal, with the onTransfer outcome
passed as an Except value: a failed validation only rewrites the error
record; a successful callback closes the modal; a failed callback stores the
generic submission error and steps back to the input view. -/
def handleTransferSubmit (s : TransferModalState) (userBalance : ℚ)
    (result : Except Unit Unit) : TransferModalState :=
  let v := transferValidate s userBalance
  if v.2 then
    match result with
    | Except.ok _ => { v.1 with isOpen := false }
    | Except.error _ =>
        { v.1 with
          recipientError := none
          gasError := none
          submitError := some "Failed to transfer NFT. Please try again."
          showConfirmation := false }
  else v.1

/-- Claim C5: when the onTransfer callback fails, the modal is back on the
input view with the generic submission error set and the typed recipient and
memo unchanged, and stays open; when the callback succeeds the modal closes,
and the next open transition resets every field. -/
theorem handleTransferSubmit_spec (s : TransferModalState) (userBalance : ℚ)
    (hok : (transferValidate s userBalance).2 = true) :
    ((handleTransferSubmit s userBalance (Except.error ())).showConfirmation = false
      ∧ (handleTransferSubmit s userBalance (Except.error ())).submitError
          = some "Failed to transfer NFT. Please try again."
      ∧ (handleTransferSubmit s userBalance (Except.error ())).recipient = s.recipient
      ∧ (handleTransferSubmit s userBalance (Except.error ())).memo = s.memo
      ∧ (handleTransferSubmit s userBalance (Except.error ())).isOpen = s.isOpen)
    ∧ ((handleTransferSubmit s userBalance (Except.ok ())).isOpen = false
      ∧ (openTransferModal (handleTransferSubmit s userBalance (Except.ok ()))).recipient
          = ""
      ∧ (openTransferModal (handleTransferSubmit s userBalance (Except.ok ()))).memo = ""
      ∧ (openTransferModal (handleTransferSubmit s userBalance
          (Except.ok ()))).addressValid = none
      ∧ (openTransferModal (handleTransferSubmit s userBalance
          (Except.ok ()))).resolvedAddress = none
      ∧ (openTransferModal (handleTransferSubmit s userBalance
          (Except.ok ()))).submitError = none
      ∧ (openTransferModal (handleTransferSubmit s userBalance
          (Except.ok ()))).showConfirmation = false
      ∧ (openTransferModal (handleTransferSubmit s userBalance
          (Except.ok ()))).isOpen = true) := by
  have hcond : transferRecipientError s = none ∧ transferGasError userBalance = none := by
    simpa [transferValidate, Option.isNone_iff_eq_none] using hok
  constructor
  · refine ⟨?_, ?_, ?_, ?_, ?_⟩ <;>
      simp [handleTransferSubmit, transferValidate, hcond.1, hcond.2]
  · refine ⟨?_, ?_, ?_, ?_, ?_, ?_, ?_, ?_⟩ <;>
      simp [handleTransferSubmit, transferValidate, openTransferModal, hcond.1, hcond.2]

/-- Concrete transfer-modal state used by the claim witnesses: a valid
direct address typed on the confirmation view. -/
def transferWitnessState : TransferModalState :=
  { isOpen := true
    recipient := ⟨'S' :: 'P' :: List.replicate 39 'X'⟩
    memo := "gift"
    addressValid := some true
    resolvedAddress := none
    recipientError := none
    gasError := none
    submitError := none
    showConfirmation := true }

/-- Claim C5 witness: the submission outcome at the concrete state and a
balance of 1 STX. -/
theorem handleTransferSubmit_spec_witness :
    (handleTransferSubmit transferWitnessState 1 (Except.error ())).showConfirmation
        = false
    ∧ (handleTransferSubmit transferWitnessState 1 (Except.ok ())).isOpen = false := by
  have h1 : transferRecipientError transferWitnessState = none := by decide
  have h2 : transferGasError 1 = none := by
    norm_num [transferGasError, TRANSFER_GAS_ESTIMATE]
  have hok : (transferValidate transferWitnessState 1).2 = true := by
    simp [transferValidate, h1, h2]
  exact ⟨(handleTransferSubmit_spec transferWitnessState 1 hok).1.1,
    (handleTransferSubmit_spec transferWitnessState 1 hok).2.1⟩

/-- Lower-casing an uppercase alphanumeric character never yields a dot. -/
theorem toLower_upperAlnum_ne_dot (a : Char) (h : upperAlnumChar a = true) :
    Char.toLower a ≠ '.' := by
  simp only [upperAlnumChar, Bool.or_eq_true, Bool.and_eq_true, decide_eq_true_eq] at h
  simp only [Char.toLower]
  intro hEq
  have h46 : ('.' : Char).toNat = 46 := by decide
  by_cases hc : 65 ≤ a.toNat ∧ a.toNat ≤ 90
  · rw [if_pos hc] at hEq
    have hn := congrArg Char.toNat hEq
    rw [toNat_charOfNat_of_lt (by omega), h46] at hn
    omega
  · rw [if_neg hc] at hEq
    have hn := congrArg Char.toNat hEq
    rw [h46] at hn
    omega

/-- The direct-address pattern and the BNS domain pattern are disjoint: a
string of the direct pattern contains no dot, even after lower-casing. -/
theorem stacks_not_bns (s : String) (h : stacksAddressTest s = true) :
    bnsDomainTest s = false := by
  unfold stacksAddressTest stacksAddressChars at h
  split at h
  case _ rest heq =>
    rw [Bool.and_eq_true] at h
    by_contra hb
    rw [Bool.not_eq_false] at hb
    unfold bnsDomainTest bnsDomainCharsLow at hb
    split at hb
    case _ rest2 heq2 =>
      have hdot : '.' ∈ (s.data.map Char.toLower).reverse := by
        rw [heq2]
        simp
      rw [List.mem_reverse, heq] at hdot
      simp only [List.map_cons, List.mem_cons, List.mem_map] at hdot
      rcases hdot with h1 | h1 | ⟨a, ha, hla⟩
      · exact absurd h1.symm (by decide)
      · exact absurd h1.symm (by decide)
      · exact toLower_upperAlnum_ne_dot a
          (by
            have := List.all_eq_true.mp h.2
            simpa using this a ha) hla
    case _ => exact Bool.false_ne_true hb
  case _ => exact absurd h (by simp)

/-- A string matching the direct-address pattern is non-empty. -/
theorem stacks_ne_empty (s : String) (h : stacksAddressTest s = true) : s ≠ "" := by
  intro hs
  rw [hs] at h
  exact absurd h (by decide)

/-- A string matching the BNS domain pattern is non-empty. -/
theorem bns_ne_empty (s : String) (h : bnsDomainTest s = true) : s ≠ "" := by
  intro hs
  rw [hs] at h
  exact absurd h (by decide)

/-- Claim C6: the payload handed to onTransfer carries the NFT identity and
token id; its recipient is the typed address when the input matched the
direct-address pattern and the resolved address when the input matched the
BNS domain pattern; the memo is the trimmed text when non-empty. -/
theorem transferSubmit_recipient_spec (nft : NFTInfo) (s : TransferModalState) :
    (stacksAddressTest s.recipient = true →
      mkTransferData nft (applyAddressValidation s) =
        { nftId := nft.id
          tokenId := nft.tokenId
          recipient := s.recipient
          memo := if s.memo.trim = "" then none else some s.memo.trim })
    ∧ (bnsDomainTest s.recipient = true →
      mkTransferData nft (applyAddressValidation s) =
        { nftId := nft.id
          tokenId := nft.tokenId
          recipient := mockResolvedAddress
          memo := if s.memo.trim = "" then none else some s.memo.trim }) := by
  constructor
  · intro hs
    have hne : s.recipient ≠ "" := stacks_ne_empty _ hs
    have hb : bnsDomainTest s.recipient = false := stacks_not_bns _ hs
    have hv : validateAddress s.recipient = AddressVerdict.valid := by
      simp [validateAddress, hne, hb, hs]
    simp [applyAddressValidation, hv, mkTransferData, jsOrS]
  · intro hb
    have hne : s.recipient ≠ "" := bns_ne_empty _ hb
    have hv : validateAddress s.recipient
        = AddressVerdict.validResolved mockResolvedAddress := by
      simp [validateAddress, hne, hb]
    have hmock : mockResolvedAddress ≠ "" := by decide
    simp [applyAddressValidation, hv, mkTransferData, jsOrS, hmock]

/-- Claim C6 witness: the payload at a concrete direct address and at a
concrete BNS name. -/
theorem transferSubmit_recipient_spec_witness :
    mkTransferData
        { id := "nft-1", name := "Punk", image := none, collection := "Punks",
          tokenId := 7 }
        (applyAddressValidation transferWitnessState) =
      { nftId := "nft-1"
        tokenId := 7
        recipient := transferWitnessState.recipient
        memo := if transferWitnessState.memo.trim = "" then none
                else some transferWitnessState.memo.trim } :=
  (transferSubmit_recipient_spec
    { id := "nft-1", name := "Punk", image := none, collection := "Punks", tokenId := 7 }
    transferWitnessState).1 (by decide)

/-! useCollection hook: pagination cursor. -/

/-- PAGE_SIZE constant of useCollection. -/
def PAGE_SIZE : ℕ := 24

/-- The pagination cursor of useCollection. -/
structure PaginationState where
  page : ℕ
  totalCount : ℕ
  hasMore : Bool
deriving DecidableEq, Repr

/-- The initial useState values of the cursor: page 1, totalCount 0 and
hasMore true. -/
def useCollectionInit : PaginationState :=
  { page := 1, totalCount := 0, hasMore := true }

/-- The hasMore value stored by a completed fetchNFTs call: offset plus the
fetched item count compared against the total (natural subtraction renders
the Math.max clamp of remainingItems). -/
def fetchNFTsHasMore (pageNum totalCount : ℕ) : Bool :=
  let offset := (pageNum - 1) * PAGE_SIZE
  let remainingItems := totalCount - offset
  let itemsToFetch := min PAGE_SIZE remainingItems
  decide (offset + itemsToFetch < totalCount)

/-- Effect of a completed fetchNFTs call on the cursor. -/
def fetchNFTsUpdate (s : PaginationState) : PaginationState :=
  { s with hasMore := fetchNFTsHasMore s.page s.totalCount }

/-- Claim C4 counterexample: in the initial cursor state, before any fetch
completes, hasMore is true although page times pageSize is not below
totalCount, so the claimed invariant does not cover the initial state. -/
theorem useCollection_initial_hasMore_counterexample :
    useCollectionInit.hasMore = true
    ∧ ¬ (useCollectionInit.page * PAGE_SIZE < useCollectionInit.totalCount) := by
  constructor
  · rfl
  · decide

/-- Claim C4 (amended): in every cursor state produced by a completed
fetchNFTs call for a page numbered at least 1, hasMore equals the comparison
of page times pageSize against totalCount, with pageSize fixed at 24; the
initial state, before any fetch completes, instead holds hasMore true
unconditionally. -/
theorem fetchNFTs_hasMore_spec (s : PaginationState) (hp : 1 ≤ s.page) :
    (fetchNFTsUpdate s).hasMore
      = decide ((fetchNFTsUpdate s).page * PAGE_SIZE < (fetchNFTsUpdate s).totalCount) := by
  show fetchNFTsHasMore s.page s.totalCount = decide (s.page * PAGE_SIZE < s.totalCount)
  unfold fetchNFTsHasMore PAGE_SIZE
  rw [decide_eq_decide]
  omega

/-- Claim C4 witness: the invariant after fetching page 1 of the mock
collection of 10000 items. -/
theorem fetchNFTs_hasMore_spec_witness :
    (fetchNFTsUpdate { page := 1, totalCount := 10000, hasMore := true }).hasMore
      = decide ((fetchNFTsUpdate { page := 1, totalCount := 10000, hasMore := true }).page
          * PAGE_SIZE
        < (fetchNFTsUpdate { page := 1, totalCount := 10000, hasMore := true }).totalCount) :=
  fetchNFTs_hasMore_spec { page := 1, totalCount := 10000, hasMore := true } (by decide)

end StackMint
